import Mathlib

/-!
Shallow embedding of the pigment-perfect-paint stroke/blend engine.

Sources embedded here:
* `src/brush/shaders.ts` (`BRUSH_FRAGMENT_SHADER`, first version): the per-pixel
  Pigment Blend Unit, as `brushFragment`.
* `src/brush/Brush.ts` (first `Brush` class): `draw`, `drawIncremental`,
  `setColor`, `setSize`, `setFlow`, `setColorPickupAmount`, `setColorReturnRate`,
  `updateBrushColorFromCanvas`, `calculateAverageColor`, `blendColors`.
* `src/canvas/Canvas.ts`: ping-pong buffer accessors, `advancePingPong`,
  `toggleDisplayMode`, `setDisplayMode`, `clear`, `drawFramebufferToScreen`.
* `src/Canvas.ts` (`AppContext`): `startDrawingOnLayer`, `continueDrawing`,
  `finalizeCurrentLine`, `changeBrushColor`, `setBrushFlow`, `redrawAll`.
* `src/webgl/webglUtils.ts`: `enableScissorBasedOnPosition`, `isPointInElement`.
* `src/Line.ts`: `Line`, `getNewPoints`, `markAsDrawn`, `catmullRom`.

GLSL floats and JS numbers are embedded as exact rationals; GPU textures are
idealized as functions from points to colors.  External inputs that are not part
of the repository (the `brush.png` mask image, the `mixbox` library's latent
transform and `lerp`, the DOM layout rectangles, the Euclidean metric used by
the missing `samplePointsAlongPath` helper) are parameters of the model.
-/

namespace PigmentPaint

/-- GLSL `mix(x, y, a) = x*(1-a) + y*a`. -/
def glslMix (x y a : ℚ) : ℚ := x * (1 - a) + y * a

/-- RGB color, one rational per channel (GLSL `vec3`). -/
structure Color3 where
  r : ℚ
  g : ℚ
  b : ℚ
deriving DecidableEq

/-- RGBA color (GLSL `vec4`). -/
structure Color4 where
  r : ℚ
  g : ℚ
  b : ℚ
  a : ℚ
deriving DecidableEq

/-- Componentwise GLSL `mix` on `vec3`. -/
def mixC3 (x y : Color3) (t : ℚ) : Color3 :=
  ⟨glslMix x.r y.r t, glslMix x.g y.g t, glslMix x.b y.b t⟩

/-- The rgb part of an RGBA color (`layerData.rgb`). -/
def rgbOf (c : Color4) : Color3 := ⟨c.r, c.g, c.b⟩

/-- The two color-mixing models: `MIXMODE_MIXBOX = 0` and `MIXMODE_RGB = 1`
in the fragment shader; also the `'mixbox' | 'rgb'` canvas display modes. -/
inductive Model where
  | mixbox
  | rgb
deriving DecidableEq

/-- Per-fragment inputs of `BRUSH_FRAGMENT_SHADER`: the `flow`, `opacity` and
`color` uniforms, the brush mask texel `texture(mask_texture, localUV).r`
at this fragment, the destination texel `layerData`, and the `mix_mode`. -/
structure FragInputs where
  flow : ℚ
  opacity : ℚ
  color : Color3
  maskValue : ℚ
  layerColor : Color3
  layerAlpha : ℚ
  mode : Model

/-- The full-strength mixed color of `BRUSH_FRAGMENT_SHADER`: guarded by
`denom > 0`, in mixbox mode `mixbox_latent_to_rgb((latB*alphaB*(1-alphaA)
+ alphaA*latA)/denom)` and in RGB mode the same combination applied to the
display-space colors; black when the guard fails.  The mixbox latent transform
is an external library, so the latent dimension `n` and the maps `toLat` /
`fromLat` are parameters. -/
def fullStrengthRGB {n : ℕ} (toLat : Color3 → Fin n → ℚ) (fromLat : (Fin n → ℚ) → Color3)
    (mode : Model) (color layerColor : Color3) (alphaA alphaB : ℚ) : Color3 :=
  let latA := toLat color
  let latB := toLat layerColor
  let denom := alphaA + alphaB * (1 - alphaA)
  if 0 < denom then
    match mode with
    | Model.mixbox => fromLat fun i => (latB i * alphaB * (1 - alphaA) + alphaA * latA i) / denom
    | Model.rgb =>
        ⟨(layerColor.r * alphaB * (1 - alphaA) + alphaA * color.r) / denom,
         (layerColor.g * alphaB * (1 - alphaA) + alphaA * color.g) / denom,
         (layerColor.b * alphaB * (1 - alphaA) + alphaA * color.b) / denom⟩
  else ⟨0, 0, 0⟩

/-- The `main` of `BRUSH_FRAGMENT_SHADER` (first shader version): discard when
the raw mask texel is below `0.01`; coverage `maskAlpha = flow * mask`;
output alpha `mix(layerData.a, 1.0, maskAlpha)`; full-strength color via
`fullStrengthRGB`; opacity cap lightening toward white when the mean channel
value falls below `1 - opacity`; final color `mix(layerData.rgb, cappedRGB,
maskAlpha)`.  `none` models `discard` (the pixel is left untouched). -/
def brushFragment {n : ℕ} (toLat : Color3 → Fin n → ℚ) (fromLat : (Fin n → ℚ) → Color3)
    (inp : FragInputs) : Option Color4 :=
  if inp.maskValue < 1/100 then none
  else
    let maskAlpha := inp.flow * inp.maskValue
    let fullOpacityAlpha := glslMix inp.layerAlpha 1 maskAlpha
    let fsc := fullStrengthRGB toLat fromLat inp.mode inp.color inp.layerColor maskAlpha inp.layerAlpha
    let whiteValue := 1 - inp.opacity
    let brightness := (fsc.r + fsc.g + fsc.b) / 3
    let targetBrightness := max brightness whiteValue
    let lightenAmount := targetBrightness - brightness
    let cappedRGB := if 0 < lightenAmount then mixC3 fsc ⟨1, 1, 1⟩ lightenAmount else fsc
    let finalRGB := mixC3 inp.layerColor cappedRGB maskAlpha
    some ⟨finalRGB.r, finalRGB.g, finalRGB.b, fullOpacityAlpha⟩

/-- Specification-side formula: the normalized latent "over" mix
`latent_to_rgb((c*latent(Cb) + Ad*(1-c)*latent(Cd)) / (c + Ad*(1-c)))`,
written exactly as the spec states it, to be compared with the shader. -/
def specLatentOverMix {n : ℕ} (toLat : Color3 → Fin n → ℚ) (fromLat : (Fin n → ℚ) → Color3)
    (cb cd : Color3) (ad c : ℚ) : Color3 :=
  fromLat fun i => (c * toLat cb i + ad * (1 - c) * toLat cd i) / (c + ad * (1 - c))

/-- Specification-side formula for the shader's opacity cap: lighten the color
toward white by `max(brightness, 1 - opacity) - brightness` when that amount is
positive. -/
def specOpacityCap (opacity : ℚ) (col : Color3) : Color3 :=
  let brightness := (col.r + col.g + col.b) / 3
  let amount := max brightness (1 - opacity) - brightness
  if 0 < amount then mixC3 col ⟨1, 1, 1⟩ amount else col

/-- A latent map for concrete instances: the identity embedding of rgb into a
3-dimensional latent space (one admissible calibration in the spec's terms:
self-mixing is a no-op and the round trip is exact). -/
def toLat3 (c : Color3) : Fin 3 → ℚ := ![c.r, c.g, c.b]

/-- Inverse of `toLat3`. -/
def fromLat3 (v : Fin 3 → ℚ) : Color3 := ⟨v 0, v 1, v 2⟩

/-- A point in 2D layer pixel space (`Line.ts`). -/
structure Point where
  x : ℚ
  y : ℚ
deriving DecidableEq

instance : Inhabited Point := ⟨⟨0, 0⟩⟩

/-- The two drawable regions: main canvas area and mixing palette area. -/
inductive Region where
  | canvas
  | palette
deriving DecidableEq

/-- A screen-space rectangle in canvas pixel coordinates, as produced from the
DOM `getBoundingClientRect` geometry (external layout, a model parameter). -/
structure RegionRect where
  left : ℚ
  right : ℚ
  top : ℚ
  bottom : ℚ
deriving DecidableEq

/-- Containment test of `isPointInElement` (`webglUtils.ts`): inclusive on all
four edges. -/
def RegionRect.containsPt (rc : RegionRect) (p : Point) : Prop :=
  rc.left ≤ p.x ∧ p.x ≤ rc.right ∧ rc.top ≤ p.y ∧ p.y ≤ rc.bottom

instance (rc : RegionRect) (p : Point) : Decidable (rc.containsPt p) :=
  inferInstanceAs (Decidable (_ ∧ _ ∧ _ ∧ _))

/-- A stroke (`Line.ts` plus the target-layer identifier used by the
`AppContext` in `src/Canvas.ts`; the layer field is carried on the stroke and
examined only by that caller). -/
structure Line where
  points : List Point
  color : Color4
  layer : Region
  drawnPointCount : ℕ

/-- The `Line` constructor: start with the single given point. -/
def Line.mk1 (startPoint : Point) (color : Color4) (layer : Region) : Line :=
  ⟨[startPoint], color, layer, 0⟩

/-- Catmull-Rom interpolation of four control points (`Line.catmullRom`). -/
def catmullRom (p0 p1 p2 p3 : Point) (t : ℚ) : Point :=
  let t2 := t * t
  let t3 := t2 * t
  ⟨(1/2) * ((2 * p1.x) + (-p0.x + p2.x) * t +
      (2 * p0.x - 5 * p1.x + 4 * p2.x - p3.x) * t2 +
      (-p0.x + 3 * p1.x - 3 * p2.x + p3.x) * t3),
   (1/2) * ((2 * p1.y) + (-p0.y + p2.y) * t +
      (2 * p0.y - 5 * p1.y + 4 * p2.y - p3.y) * t2 +
      (-p0.y + 3 * p1.y - 3 * p2.y + p3.y) * t3)⟩

/-- All consecutive windows of four points of a list. -/
def windows4 : List Point → List (Point × Point × Point × Point)
  | p0 :: p1 :: p2 :: p3 :: rest => (p0, p1, p2, p3) :: windows4 (p1 :: p2 :: p3 :: rest)
  | _ => []

/-- Modelled from the spec: the smoothed centerline of §4.1 — Catmull-Rom
interpolation with the first and last raw points duplicated as phantom control
points, sampled at a fixed number `res` of steps per input segment (the
repository's other draw paths use 10 or 20).  The concrete builder lives in
`samplePointsAlongPath` of `webglUtils`, which is imported by the brush but
absent from the provided sources. -/
def smoothedCenterline (res : ℕ) (points : List Point) : List Point :=
  match points with
  | [] => []
  | p :: _ =>
      let pts := p :: points ++ [points.getLastD p]
      (windows4 pts).flatMap fun w =>
        (List.range res).map fun j => catmullRom w.1 w.2.1 w.2.2.1 w.2.2.2 ((j : ℚ) / res)

/-- Walks a polyline emitting the first vertex and then every vertex at which
the accumulated distance since the last emission reaches `spacing`. -/
def walkFrom (dist : Point → Point → ℚ) (spacing : ℚ) :
    Point → List Point → ℚ → List Point
  | _, [], _ => []
  | prev, q :: rest, acc =>
      let acc' := acc + dist prev q
      if spacing ≤ acc' then q :: walkFrom dist spacing q rest 0
      else walkFrom dist spacing q rest acc'

/-- Resampling of a polyline at constant arc-length spacing starting at
distance 0. -/
def walkAtSpacing (dist : Point → Point → ℚ) (path : List Point) (spacing : ℚ) : List Point :=
  match path with
  | [] => []
  | p :: rest => p :: walkFrom dist spacing p rest 0

/-- Modelled from the spec: `samplePointsAlongPath` of `webglUtils` is called
by `Brush.draw` but its definition is not among the provided sources.  Per
§4.1 of the spec, fewer than 4 raw points yields no output; otherwise the
stamp centers are obtained by walking the smoothed centerline at constant
arc-length spacing.  The Euclidean segment length (`Math.hypot`) is irrational
in general, so the metric `dist` is a parameter of the model, as is the
centerline resolution `res`. -/
def samplePointsAlongPath (dist : Point → Point → ℚ) (res : ℕ) (points : List Point)
    (spacing : ℚ) : List Point :=
  if points.length < 4 then []
  else walkAtSpacing dist (smoothedCenterline res points) spacing

/-- A GPU color buffer, idealized as pixel-coordinates-to-RGBA contents. -/
def Buffer := Point → Color4

/-- External inputs of the engine that are not part of the repository sources:
the DOM layout rectangles of the two drawable areas, the canvas height (used
by the Y flip when sampling), the metric used by the arc-length walk, the
brush-mask coverage `cov stampCenter pixel` (the `brush.png` texture sampled
through the randomly rotated quad), the external `mixbox.lerp` on 0-255
colors, the mixbox latent maps, the background contents stamped by
`Background.render`, and the value of the shader's `opacity` uniform (never
set by this `Brush.draw`, hence 0 in a fresh WebGL program).  The device
pixel ratio is modelled as 1. -/
structure ExternalEnv (n : ℕ) where
  canvasRect : RegionRect
  paletteRect : RegionRect
  height : ℚ
  dist : Point → Point → ℚ
  res : ℕ
  cov : Point → Point → ℚ
  mixRGB : Color3 → Color3 → ℚ → Color3
  toLat : Color3 → Fin n → ℚ
  fromLat : (Fin n → ℚ) → Color3
  bg : Region → Buffer
  opacityUniform : ℚ

/-- Scissor selection of `enableScissorBasedOnPosition` (`webglUtils.ts`):
the canvas area is checked first, then the palette area; a point in neither
disables the scissor test (`none`). -/
def enableScissorBasedOnPosition {n : ℕ} (E : ExternalEnv n) (p : Point) : Option RegionRect :=
  if E.canvasRect.containsPt p then some E.canvasRect
  else if E.paletteRect.containsPt p then some E.paletteRect
  else none

/-- The region containing a point, with the same canvas-first priority. -/
def regionAt {n : ℕ} (E : ExternalEnv n) (p : Point) : Option Region :=
  if E.canvasRect.containsPt p then some Region.canvas
  else if E.paletteRect.containsPt p then some Region.palette
  else none

/-- The screen-space rectangle of a region. -/
def rectOf {n : ℕ} (E : ExternalEnv n) : Region → RegionRect
  | Region.canvas => E.canvasRect
  | Region.palette => E.paletteRect

/-- Whether a fragment at `q` survives the scissor test: always when the
scissor test is disabled, inside the rectangle when enabled. -/
def scissorAllows (scissor : Option RegionRect) (q : Point) : Prop :=
  match scissor with
  | none => True
  | some rc => rc.containsPt q

instance (scissor : Option RegionRect) (q : Point) : Decidable (scissorAllows scissor q) :=
  match scissor with
  | none => isTrue trivial
  | some rc => inferInstanceAs (Decidable (rc.containsPt q))

/-- The state of the `Canvas` class (`src/canvas/Canvas.ts`): per region and
per model a ping-pong pair of buffers, the shared `activeIndex`, and the
`displayMode` view selector. -/
structure CanvasState where
  bufs : Region → Model → Fin 2 → Buffer
  activeIndex : Fin 2
  displayMode : Model

/-- `Canvas.advancePingPong`: `activeIndex = 1 - activeIndex`. -/
def CanvasState.advancePingPong (cv : CanvasState) : CanvasState :=
  { cv with activeIndex := 1 - cv.activeIndex }

/-- The flip applied by `Canvas.toggleDisplayMode`. -/
def otherModel : Model → Model
  | Model.mixbox => Model.rgb
  | Model.rgb => Model.mixbox

/-- `Canvas.toggleDisplayMode`: flips the display mode and redraws the screen
(the redraw writes the default framebuffer only, no layer buffer). -/
def CanvasState.toggleDisplayMode (cv : CanvasState) : CanvasState :=
  { cv with displayMode := otherModel cv.displayMode }

/-- `Canvas.setDisplayMode`: sets the display mode and redraws the screen. -/
def CanvasState.setDisplayMode (cv : CanvasState) (m : Model) : CanvasState :=
  { cv with displayMode := m }

/-- GL blending with `blendFunc(SRC_ALPHA, ONE_MINUS_SRC_ALPHA)` applied to
all four channels, as enabled in the `Canvas` constructor. -/
def glBlendOver (src dst : Color4) : Color4 :=
  ⟨src.r * src.a + dst.r * (1 - src.a),
   src.g * src.a + dst.g * (1 - src.a),
   src.b * src.a + dst.b * (1 - src.a),
   src.a * src.a + dst.a * (1 - src.a)⟩

/-- `Canvas.drawFramebufferToScreen`: clear the screen, draw the canvas-region
active texture of the display mode, then the palette-region active texture on
top with alpha blending. -/
def compositeToScreen (cv : CanvasState) : Buffer := fun q =>
  glBlendOver (cv.bufs Region.palette cv.displayMode cv.activeIndex q)
    (glBlendOver (cv.bufs Region.canvas cv.displayMode cv.activeIndex q) ⟨0, 0, 0, 0⟩)

/-- The state of the `Brush` class (first version in `Brush.ts`). -/
structure BrushState where
  selectedColor : Color4
  currentColorMixbox : Color4
  currentColorRGB : Color4
  size : ℚ
  flow : ℚ
  spacing : ℚ
  colorPickupAmount : ℚ
  colorReturnRate : ℚ

/-- `Brush.setColor`: updates the selected color and resets both current
colors to it. -/
def BrushState.setColor (br : BrushState) (c : Color4) : BrushState :=
  { br with selectedColor := c, currentColorMixbox := c, currentColorRGB := c }

/-- `Brush.setSize`: `size = Math.max(1, size)`. -/
def BrushState.setSize (br : BrushState) (s : ℚ) : BrushState :=
  { br with size := max 1 s }

/-- `Brush.setFlow`: `flow = Math.max(0, Math.min(1, flow))`. -/
def BrushState.setFlow (br : BrushState) (f : ℚ) : BrushState :=
  { br with flow := max 0 (min 1 f) }

/-- `Brush.setColorPickupAmount`: clamp to `[0, 1]`. -/
def BrushState.setColorPickupAmount (br : BrushState) (a : ℚ) : BrushState :=
  { br with colorPickupAmount := max 0 (min 1 a) }

/-- `Brush.setColorReturnRate`: clamp to `[0, 1]`. -/
def BrushState.setColorReturnRate (br : BrushState) (r : ℚ) : BrushState :=
  { br with colorReturnRate := max 0 (min 1 r) }

/-- `Brush.blendColors`: mixbox blending converts to 0-255, applies the
external `mixbox.lerp` and converts back, with a plain lerp on alpha; RGB
blending is a componentwise lerp. -/
def blendColors (mixRGB : Color3 → Color3 → ℚ → Color3)
    (ca cb : Color4) (t : ℚ) (useMixbox : Bool) : Color4 :=
  if useMixbox then
    let res := mixRGB ⟨ca.r * 255, ca.g * 255, ca.b * 255⟩ ⟨cb.r * 255, cb.g * 255, cb.b * 255⟩ t
    ⟨res.r / 255, res.g / 255, res.b / 255, ca.a * (1 - t) + cb.a * t⟩
  else
    ⟨ca.r * (1 - t) + cb.r * t, ca.g * (1 - t) + cb.g * t,
     ca.b * (1 - t) + cb.b * t, ca.a * (1 - t) + cb.a * t⟩

/-- `Brush.calculateAverageColor`: average of the sampled pixels whose alpha
exceeds `0.1`; `none` when no pixel qualifies. -/
def calculateAverageColor (pixels : List Color4) : Option Color4 :=
  let valid := pixels.filter fun c => decide ((1 : ℚ)/10 < c.a)
  if 0 < valid.length then
    some ⟨(valid.map Color4.r).sum / valid.length,
          (valid.map Color4.g).sum / valid.length,
          (valid.map Color4.b).sum / valid.length,
          (valid.map Color4.a).sum / valid.length⟩
  else none

/-- One model's current-color update inside `updateBrushColorFromCanvas`:
pickup blend toward the sampled color then relax toward the selected color
when a sample exists, otherwise only the relax step. -/
def updateOneColor (mixRGB : Color3 → Color3 → ℚ → Color3) (useMixbox : Bool)
    (current selected : Color4) (sampled : Option Color4) (pickup ret : ℚ) : Color4 :=
  match sampled with
  | some s => blendColors mixRGB (blendColors mixRGB current s pickup useMixbox) selected ret useMixbox
  | none => blendColors mixRGB current selected ret useMixbox

/-- The square pixel neighborhood read by `gl.readPixels` in
`updateBrushColorFromCanvas`: `sampleSize = max(3, floor(size*0.2))` pixels a
side, anchored at `(max 0 (floor x - halfSample), max 0 (height - floor y -
halfSample))` with the WebGL Y flip; device pixel ratio 1. -/
def readNeighborhood {n : ℕ} (E : ExternalEnv n) (size : ℚ) (p : Point)
    (buf : Buffer) : List Color4 :=
  let sampleSize : ℕ := max 3 (Int.toNat ⌊size * (1/5)⌋)
  let halfSample : ℕ := sampleSize / 2
  let x0 : ℚ := max 0 ((⌊p.x⌋ : ℚ) - halfSample)
  let y0 : ℚ := max 0 (E.height - (⌊p.y⌋ : ℚ) - halfSample)
  (List.range sampleSize).flatMap fun j =>
    (List.range sampleSize).map fun i => buf ⟨x0 + i, y0 + j⟩

/-- `Brush.updateBrushColorFromCanvas`: for each model, read the neighborhood
from that model's inactive (previously active) canvas-layer framebuffer
(`getInactiveFramebuffer(mode)`, layer defaulted to `'canvas'`), average it,
and apply the pickup-then-return update to that model's current color. -/
def updateBrushColorFromCanvas {n : ℕ} (E : ExternalEnv n) (cv : CanvasState)
    (br : BrushState) (p : Point) : BrushState :=
  let sampledM := calculateAverageColor
    (readNeighborhood E br.size p (cv.bufs Region.canvas Model.mixbox (1 - cv.activeIndex)))
  let sampledR := calculateAverageColor
    (readNeighborhood E br.size p (cv.bufs Region.canvas Model.rgb (1 - cv.activeIndex)))
  { br with
    currentColorMixbox := updateOneColor E.mixRGB true br.currentColorMixbox br.selectedColor
      sampledM br.colorPickupAmount br.colorReturnRate
    currentColorRGB := updateOneColor E.mixRGB false br.currentColorRGB br.selectedColor
      sampledR br.colorPickupAmount br.colorReturnRate }

/-- The rgb channels of the current color used for a model's stroke pass
(the `color` uniform in `Brush.draw`). -/
def brushColor3 (br : BrushState) : Model → Color3
  | Model.mixbox => rgbOf br.currentColorMixbox
  | Model.rgb => rgbOf br.currentColorRGB

/-- One stamp of the stroke pass: every fragment that survives the scissor
test evaluates `brushFragment` against the previous texture `prev` (bound as
`layer_stroke_texture` for the whole pass) and its output is alpha-blended
into the accumulated destination with `(SRC_ALPHA, ONE_MINUS_SRC_ALPHA)` —
the blend state enabled in the `Canvas` constructor and never disabled; a
discarded fragment leaves the destination pixel as it was. -/
def stampOne {n : ℕ} (E : ExternalEnv n) (m : Model) (scissor : Option RegionRect)
    (color : Color3) (flow : ℚ) (prev : Buffer) (c : Point) (acc : Buffer) : Buffer := fun q =>
  if scissorAllows scissor q then
    match brushFragment E.toLat E.fromLat
        { flow := flow, opacity := E.opacityUniform, color := color,
          maskValue := E.cov c q, layerColor := rgbOf (prev q),
          layerAlpha := (prev q).a, mode := m } with
    | some out => glBlendOver out (acc q)
    | none => acc q
  else acc q

/-- The forward copy draw of `Brush.draw` (scissor disabled): the previous
texture is drawn over the whole destination slot; because GL blending with
`(SRC_ALPHA, ONE_MINUS_SRC_ALPHA)` is always enabled, each copied texel is
alpha-blended over the slot's stale content rather than overwriting it. -/
def copyPass (prev stale : Buffer) : Buffer := fun q => glBlendOver (prev q) (stale q)

/-- One model's full stroke pass of `Brush.draw`: the previous texture is
first blended into the destination slot on top of its stale content (scissor
disabled), then every stamp is drawn with the scissor re-enabled; every stamp
reads the same previous texture and blends into the accumulated
destination. -/
def stampPass {n : ℕ} (E : ExternalEnv n) (m : Model) (scissor : Option RegionRect)
    (color : Color3) (flow : ℚ) (stamps : List Point) (prev stale : Buffer) : Buffer :=
  stamps.foldl (fun acc c => stampOne E m scissor color flow prev c acc) (copyPass prev stale)

/-- The combined engine state mutated by a stroke pass. -/
structure PaintState where
  canvas : CanvasState
  brush : BrushState

/-- `Brush.draw` (first version): scissor from the first point of the line,
stamp centers from `samplePointsAlongPath`, one shared ping-pong advance,
the pickup/return color update, then for each model a copy-and-stamp pass
into `getActiveFramebuffer(mode)` — whose layer argument is omitted and hence
defaults to the canvas region — reading `getPreviousTexture(mode)`. -/
def brushDraw {n : ℕ} (E : ExternalEnv n) (line : Line) (ps : PaintState) : PaintState :=
  let firstPoint := line.points.headI
  let scissor := enableScissorBasedOnPosition E firstPoint
  let stamps := samplePointsAlongPath E.dist E.res line.points (ps.brush.spacing * ps.brush.size)
  let cv1 := ps.canvas.advancePingPong
  let br1 := updateBrushColorFromCanvas E cv1 ps.brush firstPoint
  let newBufs : Region → Model → Fin 2 → Buffer := fun r m s =>
    if r = Region.canvas ∧ s = cv1.activeIndex then
      stampPass E m scissor (brushColor3 br1 m) br1.flow stamps
        (cv1.bufs Region.canvas m (1 - cv1.activeIndex))
        (cv1.bufs Region.canvas m cv1.activeIndex)
    else cv1.bufs r m s
  { canvas := { cv1 with bufs := newBufs }, brush := br1 }

/-- The state of the `AppContext` in `src/Canvas.ts`. -/
structure AppState where
  drawing : Bool
  lines : List Line
  currentLine : Option Line
  paint : PaintState

/-- `AppContext.startDrawingOnLayer`: sets the drawing flag and creates a new
line seeded with the brush's selected color and the target layer. -/
def startDrawingOnLayer (x y : ℚ) (layer : Region) (st : AppState) : AppState :=
  { st with drawing := true,
            currentLine := some (Line.mk1 ⟨x, y⟩ st.paint.brush.selectedColor layer) }

/-- `AppContext.changeBrushColor`: a complete no-op while drawing, otherwise
`Brush.setColor`. -/
def changeBrushColor (st : AppState) (c : Color4) : AppState :=
  if st.drawing then st
  else { st with paint := { st.paint with brush := st.paint.brush.setColor c } }

/-- `AppContext.setBrushFlow`: a complete no-op while drawing, otherwise
`Brush.setFlow`. -/
def setBrushFlow (st : AppState) (f : ℚ) : AppState :=
  if st.drawing then st
  else { st with paint := { st.paint with brush := st.paint.brush.setFlow f } }

/-- The taxicab metric, a concrete stand-in for the arc-length metric. -/
def absDist (p q : Point) : ℚ := |p.x - q.x| + |p.y - q.y|

/-- An all-transparent buffer. -/
def zeroBuf : Buffer := fun _ => ⟨0, 0, 0, 0⟩

/-- A concrete external environment: disjoint canvas and palette rectangles,
resolution 1, full mask coverage, a linear external color lerp, the identity
latent maps, a transparent background, and opacity uniform 1. -/
def wEnv : ExternalEnv 3 :=
  ⟨⟨20, 30, 20, 30⟩, ⟨5, 15, 5, 15⟩, 100, absDist, 1, fun _ _ => 1,
   fun a b t => mixC3 a b t, toLat3, fromLat3, fun _ => zeroBuf, 1⟩

/-- A concrete brush: white selected and current colors, size 1, flow 1,
spacing 1, no pickup, no return. -/
def wBrush : BrushState := ⟨⟨1, 1, 1, 1⟩, ⟨1, 1, 1, 1⟩, ⟨1, 1, 1, 1⟩, 1, 1, 1, 0, 0⟩

/-- A concrete canvas: all buffers transparent, active slot 0, mixbox view. -/
def wCanvas : CanvasState := ⟨fun _ _ _ => zeroBuf, 0, Model.mixbox⟩

/-- The combined concrete paint state. -/
def wPaint : PaintState := ⟨wCanvas, wBrush⟩

/-- A point inside the palette rectangle of `wEnv`. -/
def wPt : Point := ⟨10, 10⟩

/-- A 4-point stroke sitting at `wPt`, i.e. starting inside the palette. -/
def wLine : Line := ⟨[wPt, wPt, wPt, wPt], ⟨1, 1, 1, 1⟩, Region.palette, 0⟩

/-- A concrete app state with a stroke in flight. -/
def wApp : AppState := ⟨true, [], some wLine, wPaint⟩

/-- Fragment input refuting C1: coverage 1/2 over an opaque black destination
with a white brush at opacity 1. -/
def c1cexInp : FragInputs := ⟨1/2, 1, ⟨1, 1, 1⟩, 1, ⟨0, 0, 0⟩, 1, Model.mixbox⟩

/-- Fragment input refuting C7: flow 0 over a fully transparent destination
whose stored rgb is red, so the combined weight denominator is zero. -/
def c7cexInp : FragInputs := ⟨0, 1, ⟨1, 1, 1⟩, 1, ⟨1, 0, 0⟩, 0, Model.mixbox⟩

/-- Fragment input for the C2 witness: coverage 1/2 over destination alpha
1/2. -/
def c2wInp : FragInputs := ⟨1/2, 1, ⟨0, 0, 0⟩, 1, ⟨0, 0, 0⟩, 1/2, Model.mixbox⟩

/-- A brush whose current colors have drifted away from the selected color
(red and green currents, blue selected; other fields the source defaults). -/
def c5brush : BrushState :=
  ⟨⟨0, 0, 1, 1⟩, ⟨1, 0, 0, 1⟩, ⟨0, 1, 0, 1⟩, 40, 3/10, 1/10, 9/10, 1/10⟩

/-- An idle app state carrying the drifted brush `c5brush`. -/
def c5st : AppState := ⟨false, [], none, ⟨wCanvas, c5brush⟩⟩

/-! Helper lemmas. -/

theorem glslMix_zero (x y : ℚ) : glslMix x y 0 = x := by
  unfold glslMix; ring

theorem glslMix_one (x y : ℚ) : glslMix x y 1 = y := by
  unfold glslMix; ring

theorem mixC3_one (x y : Color3) : mixC3 x y 1 = y := by
  simp [mixC3, glslMix_one]

theorem glBlendOver_opaque (s d : Color4) (hs : s.a = 1) : glBlendOver s d = s := by
  obtain ⟨r, g, b, a⟩ := s
  obtain ⟨dr, dg, db, da⟩ := d
  simp only at hs
  subst hs
  simp only [glBlendOver, Color4.mk.injEq]
  refine ⟨by ring, by ring, by ring, by ring⟩

theorem fullStrength_mixbox_eq_spec {n : ℕ} (toLat : Color3 → Fin n → ℚ)
    (fromLat : (Fin n → ℚ) → Color3) (cb cd : Color3) (c ad : ℚ)
    (hden : 0 < c + ad * (1 - c)) :
    fullStrengthRGB toLat fromLat Model.mixbox cb cd c ad
      = specLatentOverMix toLat fromLat cb cd ad c := by
  simp only [fullStrengthRGB, specLatentOverMix, if_pos hden]
  congr 1
  funext i
  ring

theorem stampOne_outside {n : ℕ} (E : ExternalEnv n) (m : Model)
    (scissor : Option RegionRect) (col : Color3) (fl : ℚ) (prev : Buffer)
    (c : Point) (acc : Buffer) (q : Point) (hq : ¬ scissorAllows scissor q) :
    stampOne E m scissor col fl prev c acc q = acc q := by
  simp [stampOne, hq]

theorem foldl_stampOne_outside {n : ℕ} (E : ExternalEnv n) (m : Model)
    (scissor : Option RegionRect) (col : Color3) (fl : ℚ) (prev : Buffer)
    (q : Point) (hq : ¬ scissorAllows scissor q) :
    ∀ (stamps : List Point) (acc : Buffer),
      (stamps.foldl (fun a c => stampOne E m scissor col fl prev c a) acc) q = acc q := by
  intro stamps
  induction stamps with
  | nil => intro acc; rfl
  | cons c cs ih =>
      intro acc
      rw [List.foldl_cons, ih]
      exact stampOne_outside E m scissor col fl prev c acc q hq

theorem stampPass_outside {n : ℕ} (E : ExternalEnv n) (m : Model)
    (scissor : Option RegionRect) (col : Color3) (fl : ℚ) (stamps : List Point)
    (prev stale : Buffer) (q : Point) (hq : ¬ scissorAllows scissor q) :
    stampPass E m scissor col fl stamps prev stale q = glBlendOver (prev q) (stale q) :=
  foldl_stampOne_outside E m scissor col fl prev q hq stamps (copyPass prev stale)

theorem one_sub_ne_self (i : Fin 2) : (1 : Fin 2) - i ≠ i := by
  fin_cases i <;> decide

theorem one_sub_one_sub (i : Fin 2) : (1 : Fin 2) - (1 - i) = i := by
  fin_cases i <;> decide

theorem scissor_eq_of_regionAt {n : ℕ} (E : ExternalEnv n) (p : Point) (reg : Region)
    (hreg : regionAt E p = some reg) :
    enableScissorBasedOnPosition E p = some (rectOf E reg) := by
  unfold regionAt at hreg
  unfold enableScissorBasedOnPosition
  by_cases h1 : E.canvasRect.containsPt p
  · rw [if_pos h1] at hreg ⊢
    cases hreg; rfl
  · rw [if_neg h1] at hreg ⊢
    by_cases h2 : E.paletteRect.containsPt p
    · rw [if_pos h2] at hreg ⊢
      cases hreg; rfl
    · rw [if_neg h2] at hreg
      cases hreg

/-- C1 (counterexample): at coverage `c = 1/2` (flow 1/2, mask 1), opaque
black destination, white brush, opacity 1, in pigment mode with the identity
latent calibration, the claim's premise `c + Ad·(1-c) > 0` holds and the
normalized latent over mix is `(1/2, 1/2, 1/2)`, yet the shader outputs the
color `(1/4, 1/4, 1/4)` — the output is not the latent mix unmodified, so the
claim is false at this input. -/
theorem C1_counterexample :
    (0 : ℚ) < c1cexInp.flow * c1cexInp.maskValue
        + c1cexInp.layerAlpha * (1 - c1cexInp.flow * c1cexInp.maskValue)
    ∧ specLatentOverMix toLat3 fromLat3 c1cexInp.color c1cexInp.layerColor
        c1cexInp.layerAlpha (c1cexInp.flow * c1cexInp.maskValue) = ⟨1/2, 1/2, 1/2⟩
    ∧ (brushFragment toLat3 fromLat3 c1cexInp).map rgbOf = some ⟨1/4, 1/4, 1/4⟩
    ∧ (⟨1/4, 1/4, 1/4⟩ : Color3) ≠ ⟨1/2, 1/2, 1/2⟩ := by
  refine ⟨by norm_num [c1cexInp], ?_, ?_, by norm_num [Color3.mk.injEq]⟩
  · norm_num [specLatentOverMix, toLat3, fromLat3, c1cexInp,
      Matrix.cons_val_zero, Matrix.cons_val_one, Matrix.head_cons]
  · norm_num [brushFragment, c1cexInp, fullStrengthRGB, mixC3, glslMix, toLat3, fromLat3,
      rgbOf, Matrix.cons_val_zero, Matrix.cons_val_one, Matrix.head_cons]

/-- C1 (amended): in pigment mode, for a non-discarded fragment with positive
combined weight denominator, the shader computes the normalized latent over
mix `latent_to_rgb((c·latent(Cb) + Ad·(1-c)·latent(Cd)) / (c + Ad·(1-c)))` as
its full-strength color, but the output color is that mix further modified:
first lightened toward white by `max(brightness, 1-opacity) - brightness`
(the opacity cap) and then linearly interpolated with the destination color
with weight `c`; the output alpha is `mix(Ad, 1, c)`. -/
theorem C1_amended_pigment_blend {n : ℕ} (toLat : Color3 → Fin n → ℚ)
    (fromLat : (Fin n → ℚ) → Color3) (inp : FragInputs)
    (hmode : inp.mode = Model.mixbox)
    (hmask : ¬ inp.maskValue < 1/100)
    (hden : 0 < inp.flow * inp.maskValue
        + inp.layerAlpha * (1 - inp.flow * inp.maskValue)) :
    brushFragment toLat fromLat inp =
      some ⟨glslMix inp.layerColor.r (specOpacityCap inp.opacity
              (specLatentOverMix toLat fromLat inp.color inp.layerColor
                inp.layerAlpha (inp.flow * inp.maskValue))).r (inp.flow * inp.maskValue),
            glslMix inp.layerColor.g (specOpacityCap inp.opacity
              (specLatentOverMix toLat fromLat inp.color inp.layerColor
                inp.layerAlpha (inp.flow * inp.maskValue))).g (inp.flow * inp.maskValue),
            glslMix inp.layerColor.b (specOpacityCap inp.opacity
              (specLatentOverMix toLat fromLat inp.color inp.layerColor
                inp.layerAlpha (inp.flow * inp.maskValue))).b (inp.flow * inp.maskValue),
            glslMix inp.layerAlpha 1 (inp.flow * inp.maskValue)⟩ := by
  simp only [brushFragment, if_neg hmask, hmode,
    fullStrength_mixbox_eq_spec toLat fromLat inp.color inp.layerColor
      (inp.flow * inp.maskValue) inp.layerAlpha hden,
    specOpacityCap, mixC3]

/-- C1 (witness): the amended theorem applied at the concrete input
`c1cexInp`, all hypotheses discharged there. -/
theorem C1_amended_witness :
    (c1cexInp.mode = Model.mixbox ∧ ¬ c1cexInp.maskValue < 1/100
      ∧ (0:ℚ) < c1cexInp.flow * c1cexInp.maskValue
          + c1cexInp.layerAlpha * (1 - c1cexInp.flow * c1cexInp.maskValue))
    ∧ brushFragment toLat3 fromLat3 c1cexInp =
      some ⟨glslMix c1cexInp.layerColor.r (specOpacityCap c1cexInp.opacity
              (specLatentOverMix toLat3 fromLat3 c1cexInp.color c1cexInp.layerColor
                c1cexInp.layerAlpha (c1cexInp.flow * c1cexInp.maskValue))).r
            (c1cexInp.flow * c1cexInp.maskValue),
            glslMix c1cexInp.layerColor.g (specOpacityCap c1cexInp.opacity
              (specLatentOverMix toLat3 fromLat3 c1cexInp.color c1cexInp.layerColor
                c1cexInp.layerAlpha (c1cexInp.flow * c1cexInp.maskValue))).g
            (c1cexInp.flow * c1cexInp.maskValue),
            glslMix c1cexInp.layerColor.b (specOpacityCap c1cexInp.opacity
              (specLatentOverMix toLat3 fromLat3 c1cexInp.color c1cexInp.layerColor
                c1cexInp.layerAlpha (c1cexInp.flow * c1cexInp.maskValue))).b
            (c1cexInp.flow * c1cexInp.maskValue),
            glslMix c1cexInp.layerAlpha 1 (c1cexInp.flow * c1cexInp.maskValue)⟩ :=
  ⟨⟨rfl, by norm_num [c1cexInp], by norm_num [c1cexInp]⟩,
   C1_amended_pigment_blend toLat3 fromLat3 c1cexInp rfl
     (by norm_num [c1cexInp]) (by norm_num [c1cexInp])⟩

/-- C2: for a non-discarded fragment with `Ad` and coverage `c = flow·mask`
in `[0,1]`, the output alpha is `Ad + c·(1-Ad)` clamped to 1, the alpha is
the same in pigment mode and in linear mode, and for `c > 0` the new alpha
lies between `Ad` and 1. -/
theorem C2_alpha_over {n : ℕ} (toLat : Color3 → Fin n → ℚ)
    (fromLat : (Fin n → ℚ) → Color3) (inp : FragInputs)
    (hmask : ¬ inp.maskValue < 1/100)
    (hc0 : 0 ≤ inp.flow * inp.maskValue) (hc1 : inp.flow * inp.maskValue ≤ 1)
    (hAd0 : 0 ≤ inp.layerAlpha) (hAd1 : inp.layerAlpha ≤ 1) :
    (brushFragment toLat fromLat inp).map Color4.a
      = some (min (inp.layerAlpha + inp.flow * inp.maskValue * (1 - inp.layerAlpha)) 1)
    ∧ (∀ m m' : Model,
        (brushFragment toLat fromLat { inp with mode := m }).map Color4.a
          = (brushFragment toLat fromLat { inp with mode := m' }).map Color4.a)
    ∧ (0 < inp.flow * inp.maskValue →
        inp.layerAlpha ≤ inp.layerAlpha + inp.flow * inp.maskValue * (1 - inp.layerAlpha)
        ∧ inp.layerAlpha + inp.flow * inp.maskValue * (1 - inp.layerAlpha) ≤ 1) := by
  have halpha : ∀ md : Model, (brushFragment toLat fromLat { inp with mode := md }).map Color4.a
      = some (glslMix inp.layerAlpha 1 (inp.flow * inp.maskValue)) := by
    intro md
    simp only [brushFragment, if_neg hmask, Option.map_some']
  refine ⟨?_, ?_, ?_⟩
  · have h1 : (brushFragment toLat fromLat inp).map Color4.a
        = some (glslMix inp.layerAlpha 1 (inp.flow * inp.maskValue)) := by
      simp only [brushFragment, if_neg hmask, Option.map_some']
    rw [h1, min_eq_left (by nlinarith)]
    congr 1
    unfold glslMix
    ring
  · intro m m'
    rw [halpha m, halpha m']
  · intro hc
    constructor
    · nlinarith
    · nlinarith

/-- C2 (witness): the theorem applied at the concrete input `c2wInp`
(coverage 1/2 over destination alpha 1/2), hypotheses discharged there. -/
theorem C2_witness :
    (¬ c2wInp.maskValue < 1/100 ∧ (0:ℚ) ≤ c2wInp.flow * c2wInp.maskValue
      ∧ c2wInp.flow * c2wInp.maskValue ≤ 1
      ∧ (0:ℚ) ≤ c2wInp.layerAlpha ∧ c2wInp.layerAlpha ≤ 1)
    ∧ (brushFragment toLat3 fromLat3 c2wInp).map Color4.a
        = some (min (c2wInp.layerAlpha + c2wInp.flow * c2wInp.maskValue
            * (1 - c2wInp.layerAlpha)) 1) :=
  ⟨⟨by norm_num [c2wInp], by norm_num [c2wInp], by norm_num [c2wInp],
    by norm_num [c2wInp], by norm_num [c2wInp]⟩,
   (C2_alpha_over toLat3 fromLat3 c2wInp (by norm_num [c2wInp]) (by norm_num [c2wInp])
     (by norm_num [c2wInp]) (by norm_num [c2wInp]) (by norm_num [c2wInp])).1⟩

/-- C7 (counterexample): at flow 0 over a fully transparent destination whose
stored rgb is red, the combined weight denominator is zero, yet the blend's
output color is the stored destination color `(1,0,0)`, not black. -/
theorem C7_counterexample :
    c7cexInp.flow * c7cexInp.maskValue
        + c7cexInp.layerAlpha * (1 - c7cexInp.flow * c7cexInp.maskValue) = 0
    ∧ (brushFragment toLat3 fromLat3 c7cexInp).map rgbOf = some ⟨1, 0, 0⟩
    ∧ (⟨1, 0, 0⟩ : Color3) ≠ ⟨0, 0, 0⟩ := by
  refine ⟨by norm_num [c7cexInp], ?_, by simp [Color3.mk.injEq]⟩
  norm_num [brushFragment, c7cexInp, fullStrengthRGB, mixC3, glslMix, toLat3, fromLat3,
    rgbOf, Matrix.cons_val_zero, Matrix.cons_val_one, Matrix.head_cons]

/-- C7 (amended): for a non-discarded fragment with `c = flow·mask` and `Ad`
in range, a zero combined weight denominator forces `c = 0` and `Ad = 0`; the
guarded branch then yields black for the full-strength mixed color (the
division is skipped), but the fragment's final output color equals the stored
destination color unchanged, with output alpha `Ad`. -/
theorem C7_amended_zero_denominator {n : ℕ} (toLat : Color3 → Fin n → ℚ)
    (fromLat : (Fin n → ℚ) → Color3) (inp : FragInputs)
    (hmask : ¬ inp.maskValue < 1/100)
    (hc0 : 0 ≤ inp.flow * inp.maskValue) (hc1 : inp.flow * inp.maskValue ≤ 1)
    (hAd0 : 0 ≤ inp.layerAlpha)
    (hden : inp.flow * inp.maskValue
        + inp.layerAlpha * (1 - inp.flow * inp.maskValue) = 0) :
    inp.flow * inp.maskValue = 0 ∧ inp.layerAlpha = 0
    ∧ fullStrengthRGB toLat fromLat inp.mode inp.color inp.layerColor
        (inp.flow * inp.maskValue) inp.layerAlpha = ⟨0, 0, 0⟩
    ∧ (brushFragment toLat fromLat inp).map rgbOf = some inp.layerColor
    ∧ (brushFragment toLat fromLat inp).map Color4.a = some inp.layerAlpha := by
  have hAdz : inp.layerAlpha = 0 := by nlinarith [mul_nonneg hAd0 (by linarith : (0:ℚ) ≤ 1 - inp.flow * inp.maskValue)]
  have hcz : inp.flow * inp.maskValue = 0 := by nlinarith
  have hfsc : fullStrengthRGB toLat fromLat inp.mode inp.color inp.layerColor
      (inp.flow * inp.maskValue) inp.layerAlpha = ⟨0, 0, 0⟩ := by
    simp only [fullStrengthRGB]
    rw [if_neg (by rw [hden]; exact lt_irrefl 0)]
  refine ⟨hcz, hAdz, hfsc, ?_, ?_⟩
  · simp only [brushFragment, if_neg hmask, Option.map_some', hcz, rgbOf, mixC3, glslMix_zero]
  · simp only [brushFragment, if_neg hmask, Option.map_some', hcz, glslMix]
    congr 1
    ring

/-- C7 (witness): the amended theorem applied at the concrete input
`c7cexInp`, hypotheses discharged there. -/
theorem C7_amended_witness :
    (¬ c7cexInp.maskValue < 1/100 ∧ (0:ℚ) ≤ c7cexInp.flow * c7cexInp.maskValue
      ∧ c7cexInp.flow * c7cexInp.maskValue ≤ 1 ∧ (0:ℚ) ≤ c7cexInp.layerAlpha
      ∧ c7cexInp.flow * c7cexInp.maskValue
          + c7cexInp.layerAlpha * (1 - c7cexInp.flow * c7cexInp.maskValue) = 0)
    ∧ (brushFragment toLat3 fromLat3 c7cexInp).map rgbOf = some c7cexInp.layerColor :=
  ⟨⟨by norm_num [c7cexInp], by norm_num [c7cexInp], by norm_num [c7cexInp],
    by norm_num [c7cexInp], by norm_num [c7cexInp]⟩,
   (C7_amended_zero_denominator toLat3 fromLat3 c7cexInp (by norm_num [c7cexInp])
     (by norm_num [c7cexInp]) (by norm_num [c7cexInp]) (by norm_num [c7cexInp])
     (by norm_num [c7cexInp])).2.2.2.1⟩

/-- C5 (counterexample): starting a stroke from the idle state `c5st`, whose
current colors have drifted to red (mixbox) and green (RGB) while the selected
color is blue, leaves both current colors at their drifted values — they are
not reset to the selected color on stroke start. -/
theorem C5_counterexample :
    (startDrawingOnLayer 1 2 Region.canvas c5st).paint.brush.currentColorMixbox = ⟨1, 0, 0, 1⟩
    ∧ (startDrawingOnLayer 1 2 Region.canvas c5st).paint.brush.currentColorRGB = ⟨0, 1, 0, 1⟩
    ∧ c5st.paint.brush.selectedColor = ⟨0, 0, 1, 1⟩
    ∧ (⟨1, 0, 0, 1⟩ : Color4) ≠ ⟨0, 0, 1, 1⟩
    ∧ (⟨0, 1, 0, 1⟩ : Color4) ≠ ⟨0, 0, 1, 1⟩ := by
  refine ⟨rfl, rfl, rfl, ?_, ?_⟩ <;> norm_num [Color4.mk.injEq]

/-- C5 (amended): on stroke start the drawing flag is set and a new line is
created that records the selected color and the target layer, while the brush
state — in particular both drifted current colors — is left entirely
unchanged; the reset of both current colors to the user-selected color
happens only in `Brush.setColor`. -/
theorem C5_amended_start_keeps_current_colors (x y : ℚ) (layer : Region) (st : AppState) :
    (startDrawingOnLayer x y layer st).paint = st.paint
    ∧ (startDrawingOnLayer x y layer st).drawing = true
    ∧ (startDrawingOnLayer x y layer st).currentLine
        = some (Line.mk1 ⟨x, y⟩ st.paint.brush.selectedColor layer)
    ∧ (∀ (br : BrushState) (c : Color4),
        (br.setColor c).selectedColor = c
        ∧ (br.setColor c).currentColorMixbox = c
        ∧ (br.setColor c).currentColorRGB = c) :=
  ⟨rfl, rfl, rfl, fun _ _ => ⟨rfl, rfl, rfl⟩⟩

/-- C6: provided the external `mixbox.lerp` is endpoint-exact at `t = 1`
(which holds of mixbox, whose latent carries the rgb residual), the brush
color update of a draw call applies, once per call and for each model, the
two-step rule pickup-then-return on that model's current color — with the
sampled color present it is `blend(blend(current, sampled, pickup), selected,
return)`, with no qualifying sample only the relax-toward-selected step — and
`returnRate = 1` makes the updated current color equal the selected color for
every current and sampled color in both models. -/
theorem C6_pickup_return_update {n : ℕ} (E : ExternalEnv n)
    (hmix : ∀ a b : Color3, E.mixRGB a b 1 = b) :
    (∀ (line : Line) (ps : PaintState),
        (brushDraw E line ps).brush
          = updateBrushColorFromCanvas E ps.canvas.advancePingPong ps.brush line.points.headI)
    ∧ (∀ (u : Bool) (current selected sampled : Color4) (pickup ret : ℚ),
        updateOneColor E.mixRGB u current selected (some sampled) pickup ret
          = blendColors E.mixRGB (blendColors E.mixRGB current sampled pickup u) selected ret u
        ∧ updateOneColor E.mixRGB u current selected none pickup ret
          = blendColors E.mixRGB current selected ret u)
    ∧ (∀ (u : Bool) (current selected : Color4) (sampled : Option Color4) (pickup : ℚ),
        updateOneColor E.mixRGB u current selected sampled pickup 1 = selected) := by
  refine ⟨fun _ _ => rfl, fun _ _ _ _ _ _ => ⟨rfl, rfl⟩, ?_⟩
  intro u current selected sampled pickup
  obtain ⟨sr, sg, sb, sa⟩ := selected
  have hone : ∀ x : Color4, blendColors E.mixRGB x ⟨sr, sg, sb, sa⟩ 1 u = ⟨sr, sg, sb, sa⟩ := by
    intro x
    cases u <;> simp [blendColors, hmix, Color4.mk.injEq]
  cases sampled <;> simp [updateOneColor, hone]

/-- C6 (witness): the returnRate-1 conclusion of the theorem applied in the
concrete environment `wEnv` (whose `mixRGB` is a linear lerp, endpoint-exact
at 1) to drifted concrete colors. -/
theorem C6_witness :
    updateOneColor wEnv.mixRGB true ⟨1, 0, 0, 1⟩ ⟨0, 0, 1, 1⟩ (some ⟨0, 1, 0, 1⟩) (9/10) 1
      = ⟨0, 0, 1, 1⟩ :=
  (C6_pickup_return_update wEnv (fun a b => mixC3_one a b)).2.2 true ⟨1, 0, 0, 1⟩
    ⟨0, 0, 1, 1⟩ (some ⟨0, 1, 0, 1⟩) (9/10)

/-- C8: toggling or setting the display mode changes neither the contents of
any stroke buffer of either model or region nor the active slot; it only
changes which model's active buffer pair is composited to the screen, with
no recomputation of buffer contents. -/
theorem C8_display_mode_pure_view (cv : CanvasState) (m : Model) :
    cv.toggleDisplayMode.bufs = cv.bufs
    ∧ cv.toggleDisplayMode.activeIndex = cv.activeIndex
    ∧ cv.toggleDisplayMode.displayMode = otherModel cv.displayMode
    ∧ (cv.setDisplayMode m).bufs = cv.bufs
    ∧ (cv.setDisplayMode m).activeIndex = cv.activeIndex
    ∧ (cv.setDisplayMode m).displayMode = m
    ∧ compositeToScreen cv.toggleDisplayMode = (fun q =>
        glBlendOver (cv.bufs Region.palette (otherModel cv.displayMode) cv.activeIndex q)
          (glBlendOver (cv.bufs Region.canvas (otherModel cv.displayMode) cv.activeIndex q)
            ⟨0, 0, 0, 0⟩)) :=
  ⟨rfl, rfl, rfl, rfl, rfl, rfl, rfl⟩

/-- C9: every numeric brush configuration setter clamps into the documented
range: `setSize` to at least 1 (hence positive), `setFlow`,
`setColorPickupAmount` and `setColorReturnRate` into `[0, 1]`. -/
theorem C9_setter_clamps (br : BrushState) (s f a r : ℚ) :
    (1 ≤ (br.setSize s).size ∧ 0 < (br.setSize s).size)
    ∧ (0 ≤ (br.setFlow f).flow ∧ (br.setFlow f).flow ≤ 1)
    ∧ (0 ≤ (br.setColorPickupAmount a).colorPickupAmount
        ∧ (br.setColorPickupAmount a).colorPickupAmount ≤ 1)
    ∧ (0 ≤ (br.setColorReturnRate r).colorReturnRate
        ∧ (br.setColorReturnRate r).colorReturnRate ≤ 1) := by
  refine ⟨⟨le_max_left 1 s, lt_of_lt_of_le one_pos (le_max_left 1 s)⟩, ?_, ?_, ?_⟩ <;>
    exact ⟨le_max_left 0 _, max_le (by norm_num) (min_le_left 1 _)⟩

/-- C10: while a stroke is in flight (the drawing flag is set),
`changeBrushColor` and `setBrushFlow` return the state unchanged — the
selected color, both current colors and the flow are untouched and the
requested value is discarded. -/
theorem C10_inflight_setters_noop (st : AppState) (c : Color4) (f : ℚ)
    (h : st.drawing = true) :
    changeBrushColor st c = st ∧ setBrushFlow st f = st := by
  constructor <;> simp [changeBrushColor, setBrushFlow, h]

/-- C10 (witness): the theorem applied to the concrete in-flight state
`wApp`. -/
theorem C10_witness : changeBrushColor wApp ⟨1, 1, 1, 1⟩ = wApp
    ∧ setBrushFlow wApp (1/2) = wApp :=
  C10_inflight_setters_noop wApp ⟨1, 1, 1, 1⟩ (1/2) rfl

/-- C3 (counterexample): a stroke whose first point lies in the palette
region writes its stamps into the canvas-region buffer pair (the changed
pixel below), while every palette-region buffer is left untouched — the
stamping pass does not bind the destination buffer pair of the region the
stroke started in. -/
theorem C3_counterexample :
    regionAt wEnv wLine.points.headI = some Region.palette
    ∧ (brushDraw wEnv wLine wPaint).canvas.bufs Region.canvas Model.mixbox 1 wPt
        ≠ wPaint.canvas.bufs Region.canvas Model.mixbox 1 wPt
    ∧ (∀ (m : Model) (s : Fin 2),
        (brushDraw wEnv wLine wPaint).canvas.bufs Region.palette m s
          = wPaint.canvas.bufs Region.palette m s) := by
  refine ⟨?_, ?_, ?_⟩
  · norm_num [regionAt, wEnv, wLine, wPt, RegionRect.containsPt]
  · have hL : (brushDraw wEnv wLine wPaint).canvas.bufs Region.canvas Model.mixbox 1 wPt
        = ⟨1, 1, 1, 1⟩ := by
      norm_num [brushDraw, wEnv, wLine, wPaint, wCanvas, wBrush, zeroBuf, wPt, absDist,
        samplePointsAlongPath, walkAtSpacing, walkFrom, smoothedCenterline, windows4,
        catmullRom, List.range_succ, CanvasState.advancePingPong, updateBrushColorFromCanvas,
        readNeighborhood, calculateAverageColor, updateOneColor, blendColors, mixC3, glslMix,
        brushColor3, rgbOf, stampPass, stampOne, copyPass, glBlendOver, scissorAllows,
        enableScissorBasedOnPosition, RegionRect.containsPt, brushFragment, fullStrengthRGB,
        toLat3, fromLat3, Matrix.cons_val_zero, Matrix.cons_val_one, Matrix.head_cons]
    have hR : wPaint.canvas.bufs Region.canvas Model.mixbox 1 wPt = ⟨0, 0, 0, 0⟩ := rfl
    rw [hL, hR]
    norm_num [Color4.mk.injEq]
  · intro m s
    simp [brushDraw, CanvasState.advancePingPong]

/-- C3 (amended): for every stroke whose first point lies in region `reg`,
the stamping pass binds the canvas-region buffer pair regardless of `reg`
(the layer argument of `getActiveFramebuffer` is omitted and defaults to the
canvas layer): palette-region buffers and the previously active canvas slot
are untouched; in the newly written canvas slot the stroke's stamp writes
are restricted to the screen-space rectangle of `reg` — outside it every
pixel holds exactly the forward-copy result, the previous active content
alpha-blended over the slot's stale content, independent of the stroke's
stamps — and wherever the previous active pixel is opaque that result is
the previous active content unchanged. -/
theorem C3_amended_canvas_binding_scissor {n : ℕ} (E : ExternalEnv n) (line : Line)
    (ps : PaintState) (reg : Region)
    (hreg : regionAt E line.points.headI = some reg) :
    (∀ (m : Model) (s : Fin 2),
        (brushDraw E line ps).canvas.bufs Region.palette m s
          = ps.canvas.bufs Region.palette m s)
    ∧ (∀ m : Model,
        (brushDraw E line ps).canvas.bufs Region.canvas m ps.canvas.activeIndex
          = ps.canvas.bufs Region.canvas m ps.canvas.activeIndex)
    ∧ (∀ (m : Model) (q : Point), ¬ (rectOf E reg).containsPt q →
        (brushDraw E line ps).canvas.bufs Region.canvas m (1 - ps.canvas.activeIndex) q
          = glBlendOver (ps.canvas.bufs Region.canvas m ps.canvas.activeIndex q)
              (ps.canvas.bufs Region.canvas m (1 - ps.canvas.activeIndex) q))
    ∧ (∀ (m : Model) (q : Point), ¬ (rectOf E reg).containsPt q →
        (ps.canvas.bufs Region.canvas m ps.canvas.activeIndex q).a = 1 →
        (brushDraw E line ps).canvas.bufs Region.canvas m (1 - ps.canvas.activeIndex) q
          = ps.canvas.bufs Region.canvas m ps.canvas.activeIndex q) := by
  have hsc : enableScissorBasedOnPosition E line.points.headI = some (rectOf E reg) :=
    scissor_eq_of_regionAt E line.points.headI reg hreg
  have h3 : ∀ (m : Model) (q : Point), ¬ (rectOf E reg).containsPt q →
      (brushDraw E line ps).canvas.bufs Region.canvas m (1 - ps.canvas.activeIndex) q
        = glBlendOver (ps.canvas.bufs Region.canvas m ps.canvas.activeIndex q)
            (ps.canvas.bufs Region.canvas m (1 - ps.canvas.activeIndex) q) := by
    intro m q hq
    have hq' : ¬ scissorAllows (enableScissorBasedOnPosition E line.points.headI) q := by
      rw [hsc]
      simpa [scissorAllows] using hq
    simp only [brushDraw, CanvasState.advancePingPong]
    rw [if_pos ⟨trivial, trivial⟩, stampPass_outside _ _ _ _ _ _ _ _ _ hq', one_sub_one_sub]
  refine ⟨?_, ?_, h3, ?_⟩
  · intro m s
    simp [brushDraw, CanvasState.advancePingPong]
  · intro m
    simp only [brushDraw, CanvasState.advancePingPong]
    rw [if_neg (fun h => one_sub_ne_self ps.canvas.activeIndex h.2.symm)]
  · intro m q hq hop
    rw [h3 m q hq, glBlendOver_opaque _ _ hop]

/-- C3 (witness): the amended theorem applied to the concrete palette-region
stroke `wLine` in `wPaint`, the region hypothesis discharged there. -/
theorem C3_amended_witness :
    regionAt wEnv wLine.points.headI = some Region.palette
    ∧ (∀ m : Model,
        (brushDraw wEnv wLine wPaint).canvas.bufs Region.canvas m wPaint.canvas.activeIndex
          = wPaint.canvas.bufs Region.canvas m wPaint.canvas.activeIndex) :=
  ⟨by norm_num [regionAt, wEnv, wLine, wPt, RegionRect.containsPt],
   (C3_amended_canvas_binding_scissor wEnv wLine wPaint Region.palette
     (by norm_num [regionAt, wEnv, wLine, wPt, RegionRect.containsPt])).2.1⟩

end PigmentPaint
